import Mathlib

/-!
Verification of the computational core of the construction-tracking dashboard:
the priority classifier, the worked-hours calculator and the calendar-grid
builder from the date-utilities module.  The definitions below are a shallow
embedding of the TypeScript source: JavaScript numbers are modelled as `Int`
(exact for the integer minute/day arithmetic involved) and fractional results
as `ℚ`; `Math.round` is `⌊x + 1/2⌋`; the `Date` built-in is modelled by a
year/month/day record with ECMAScript month normalization and the standard
proleptic-Gregorian weekday computation used by `Date.prototype.getDay`.
-/

namespace SiteCore

/-! ### PriorityClassifier (`calculatePriority`) -/

/-- The closed priority enumeration `'high' | 'medium' | 'low'`. -/
inductive PriorityLevel where
  | high
  | medium
  | low
deriving DecidableEq, Repr

/-- Embedding of `calculatePriority(dueDate)`.  The date-fns `parseISO` is a
library function external to the repository, so it is an explicit parameter
`parseISO : String → Option Int` returning the parsed date as a day number
(`none` models an Invalid Date).  `today` is the current day number (the
source normalizes the current instant to midnight before differencing, so a
day number captures it).  A `none` / empty-string due date is falsy in
JavaScript and short-circuits to `low`.  When `parseISO` fails, JavaScript
produces `NaN` for `daysUntil`; both comparisons `NaN <= 3` and `NaN <= 7`
are false, so the source falls through and returns `low`, which the `none`
branch reproduces. -/
def calculatePriority (parseISO : String → Option Int) (today : Int)
    (dueDate : Option String) : PriorityLevel :=
  match dueDate with
  | none => .low
  | some s =>
    if s = "" then .low
    else
      match parseISO s with
      | none => .low
      | some due =>
        let daysUntil := due - today
        if daysUntil ≤ 3 then .high
        else if daysUntil ≤ 7 then .medium
        else .low

/-! ### HoursCalculator (`calculateHours`) -/

/-- The regex test `/^\d\x7b2\x7d:\d\x7b2\x7d$/.test s`: exactly five
characters, digits in positions 0,1,3,4 and a colon in position 2. -/
def matchesHHMM (s : String) : Bool :=
  match s.data with
  | [a, b, c, d, e] => a.isDigit && b.isDigit && c == ':' && d.isDigit && e.isDigit
  | _ => false

/-- Numeric value of a decimal digit character. -/
def digitVal (c : Char) : Int :=
  (c.toNat : Int) - 48

/-- `s.split(':').map(Number)` for a string that passed the `HH:MM` regex:
the two two-digit numbers.  (Total; the fallback branch is unreachable under
the regex guard in `calculateHours`.) -/
def timeParts (s : String) : Int × Int :=
  match s.data with
  | [a, b, _, d, e] => (10 * digitVal a + digitVal b, 10 * digitVal d + digitVal e)
  | _ => (0, 0)

/-- `Math.round` on an exact rational: round half toward positive infinity. -/
def jsRound (q : ℚ) : Int :=
  ⌊q + 1 / 2⌋

/-- Embedding of `calculateHours(start, finish, lunchMinutes)`. -/
def calculateHours (start finish : String) (lunchMinutes : Int) : ℚ :=
  if matchesHHMM start && matchesHHMM finish then
    let sp := timeParts start
    let fp := timeParts finish
    let startMins : Int := sp.1 * 60 + sp.2
    let finishMins0 : Int := fp.1 * 60 + fp.2
    let finishMins : Int := if finishMins0 < startMins then finishMins0 + 24 * 60 else finishMins0
    let total : Int := max 0 (finishMins - startMins - lunchMinutes)
    (jsRound ((total : ℚ) / 15) : ℚ) * 15 / 60
  else 0

/-- Reference computation, written from the specification text: convert the
two times to minutes since midnight, add 1440 to `finish` when it is before
`start`, floor the lunch-adjusted difference at 0, round to the nearest
15-minute increment using integer round-half-up, and divide by 60. -/
def referenceHours (start finish : String) (lunchMinutes : Int) : ℚ :=
  let s : Int := 60 * (timeParts start).1 + (timeParts start).2
  let f0 : Int := 60 * (timeParts finish).1 + (timeParts finish).2
  let f : Int := if f0 < s then f0 + 1440 else f0
  let raw : Int := max 0 (f - s - lunchMinutes)
  (((2 * raw + 15).ediv 30 : Int) : ℚ) * 15 / 60

/-- Reference computation with no lunch deduction at all (specification text
for the amended lunch-handling claim). -/
def referenceHoursNoLunch (start finish : String) : ℚ :=
  let s : Int := 60 * (timeParts start).1 + (timeParts start).2
  let f0 : Int := 60 * (timeParts finish).1 + (timeParts finish).2
  let f : Int := if f0 < s then f0 + 1440 else f0
  let raw : Int := max 0 (f - s)
  (((2 * raw + 15).ediv 30 : Int) : ℚ) * 15 / 60

/-! ### CalendarGridBuilder (`getMonthDays`, `getCalendarGrid`) -/

/-- A calendar date as produced by the ECMAScript `Date` constructor with an
in-range day and month: `month` is 0-based (0 = January). -/
structure Date where
  year : Int
  month : Int
  day : Int
deriving DecidableEq, Repr

/-- Gregorian leap-year rule, as implemented by ECMAScript `Date`. -/
def isLeapYear (y : Int) : Bool :=
  y % 4 == 0 && (y % 100 != 0 || y % 400 == 0)

/-- Number of days in 0-based month `m` of year `y` (`m` in `0..11`); this is
what `new Date(y, m + 1, 0).getDate()` yields. -/
def daysInMonth (y m : Int) : Nat :=
  if m = 1 then (if isLeapYear y then 29 else 28)
  else if m = 3 ∨ m = 5 ∨ m = 8 ∨ m = 10 then 30
  else 31

/-- Embedding of `getMonthDays(year, month)`: every date of the month, in
ascending order.  `new Date(year, month, 1)` normalizes an out-of-range month
by carrying `⌊month / 12⌋` into the year (ECMAScript `MakeDay`); `ediv`/`emod`
with the positive modulus 12 implement that floor normalization. -/
def getMonthDays (year month : Int) : List Date :=
  let ny := year + month.ediv 12
  let nm := month.emod 12
  (List.range (daysInMonth ny nm)).map (fun (i : Nat) => ⟨ny, nm, (i : Int) + 1⟩)

/-- Days from 1970-01-01 to civil date `y-m-d` (1-based `m` in `1..12`),
proleptic Gregorian — the day-number arithmetic underlying ECMAScript
`MakeDay`/`Day`. -/
def daysFromCivil (y m d : Int) : Int :=
  let y1 : Int := if m ≤ 2 then y - 1 else y
  let era : Int := y1.ediv 400
  let yoe : Int := y1 - era * 400
  let mp : Int := (m + 9).emod 12
  let doy : Int := (153 * mp + 2).ediv 5 + d - 1
  let doe : Int := yoe * 365 + yoe.ediv 4 - yoe.ediv 100 + doy
  era * 146097 + doe - 719468

/-- `Date.prototype.getDay`: weekday 0 = Sunday .. 6 = Saturday
(1970-01-01 was a Thursday, weekday 4). -/
def Date.getDay (dt : Date) : Nat :=
  ((daysFromCivil dt.year (dt.month + 1) dt.day + 4).emod 7).toNat

/-- `while (week.length < 7) week.push(null)`: pad a partial week to 7 slots. -/
def padWeek (w : List (Option Date)) : List (Option Date) :=
  w ++ List.replicate (7 - w.length) none

/-- The `for (const d of days)` loop of `getCalendarGrid` together with the
trailing partial-week padding: push each day onto the current `week`,
emitting the week whenever it reaches 7 slots. -/
def gridLoop : List Date → List (Option Date) → List (List (Option Date))
  | [], week => if week.isEmpty then [] else [padWeek week]
  | d :: rest, week =>
    let week1 := week ++ [some d]
    if week1.length = 7 then week1 :: gridLoop rest [] else gridLoop rest week1

/-- `days[0].getDay()`: the weekday of the first day of the month.  `days` is
never empty (every month has at least 28 days), so the `[]` branch is
unreachable; it is given the value 0 to keep the function total. -/
def firstDayOfWeek (year month : Int) : Nat :=
  match getMonthDays year month with
  | [] => 0
  | d :: _ => d.getDay

/-- Embedding of `getCalendarGrid(year, month)`: the week accumulator starts
with one `null` per weekday index of the month's first day, then the day loop
runs. -/
def getCalendarGrid (year month : Int) : List (List (Option Date)) :=
  gridLoop (getMonthDays year month)
    (List.replicate (firstDayOfWeek year month) (none : Option Date))

/-- Row-chunking described by the specification text: rows of exactly 7
slots, the final partial row padded with empty slots.  Fueled structural
recursion; the fuel is instantiated with the list length, which always
suffices. -/
def chunkRows : Nat → List (Option Date) → List (List (Option Date))
  | _, [] => []
  | 0, _ :: _ => []
  | n + 1, x :: xs => padWeek ((x :: xs).take 7) :: chunkRows n ((x :: xs).drop 7)

/-- The flat slot stream described by the specification text: one empty slot
per weekday index of the first day of the month, then the month's dates in
ascending order. -/
def monthSlots (year month : Int) : List (Option Date) :=
  List.replicate (firstDayOfWeek year month) (none : Option Date)
    ++ (getMonthDays year month).map some

/-- Reference grid, written from the specification text: pack the slot stream
into rows of exactly 7 slots, padding the final row to a full week. -/
def referenceGrid (year month : Int) : List (List (Option Date)) :=
  chunkRows (monthSlots year month).length (monthSlots year month)

/-! ### Lemmas about the hours calculator -/

/-- `Math.round (t / 15)` agrees with integer round-half-up. -/
lemma jsRound_div15 (t : Int) : jsRound ((t : ℚ) / 15) = (2 * t + 15).ediv 30 := by
  unfold jsRound
  have hd : (30 : Int) * ((2 * t + 15).ediv 30) + (2 * t + 15).emod 30 = 2 * t + 15 :=
    Int.ediv_add_emod _ _
  have h0 : 0 ≤ (2 * t + 15).emod 30 := Int.emod_nonneg _ (by norm_num)
  have h1 : (2 * t + 15).emod 30 < 30 := Int.emod_lt_of_pos _ (by norm_num)
  rw [Int.floor_eq_iff]
  constructor
  · have : ((30 : ℚ) * ((2 * t + 15).ediv 30 : Int) + ((2 * t + 15).emod 30 : Int))
        = 2 * (t : ℚ) + 15 := by exact_mod_cast congrArg (fun z : Int => (z : ℚ)) hd
    have hr : (0 : ℚ) ≤ ((2 * t + 15).emod 30 : Int) := by exact_mod_cast h0
    linarith
  · have : ((30 : ℚ) * ((2 * t + 15).ediv 30 : Int) + ((2 * t + 15).emod 30 : Int))
        = 2 * (t : ℚ) + 15 := by exact_mod_cast congrArg (fun z : Int => (z : ℚ)) hd
    have hr : ((2 * t + 15).emod 30 : ℚ) < 30 := by exact_mod_cast h1
    linarith

/-- Core arithmetic identity: the source's `Math.round(total / 15) * 15 / 60`
equals the reference's integer round-half-up, for the same minute values. -/
lemma hours_core (s0 f0 l : Int) :
    (jsRound (((max 0 ((if f0 < s0 then f0 + 24 * 60 else f0) - s0 - l) : Int) : ℚ) / 15) : ℚ)
        * 15 / 60
      = (((2 * max 0 ((if f0 < s0 then f0 + 1440 else f0) - s0 - l) + 15).ediv 30 : Int) : ℚ)
        * 15 / 60 := by
  rw [jsRound_div15]
  norm_num

/-- Under the `HH:MM` regex guard, `calculateHours` computes exactly the
reference quantity. -/
lemma calculateHours_eq_referenceHours (s f : String) (l : Int)
    (hs : matchesHHMM s = true) (hf : matchesHHMM f = true) :
    calculateHours s f l = referenceHours s f l := by
  unfold calculateHours referenceHours
  rw [hs, hf]
  simp only [Bool.and_self, if_true]
  have e1 : (timeParts s).1 * 60 + (timeParts s).2 = 60 * (timeParts s).1 + (timeParts s).2 := by
    ring
  have e2 : (timeParts f).1 * 60 + (timeParts f).2 = 60 * (timeParts f).1 + (timeParts f).2 := by
    ring
  rw [e1, e2]
  exact hours_core _ _ _

/-- The rounded-hours expression is non-negative for any floored total. -/
lemma hours_expr_nonneg (t : Int) :
    (0 : ℚ) ≤ (jsRound (((max 0 t : Int) : ℚ) / 15) : ℚ) * 15 / 60 := by
  rw [jsRound_div15]
  have h : (0 : Int) ≤ (2 * max 0 t + 15).ediv 30 :=
    Int.ediv_nonneg (by omega) (by norm_num)
  have hq : (0 : ℚ) ≤ (((2 * max 0 t + 15).ediv 30 : Int) : ℚ) := by exact_mod_cast h
  positivity

/-- The computed hours are never negative. -/
lemma calculateHours_nonneg (s f : String) (l : Int) : 0 ≤ calculateHours s f l := by
  unfold calculateHours
  split
  · exact hours_expr_nonneg _
  · exact le_refl 0

/-- The integer core of the reference computation: floored lunch-adjusted
minutes, rounded half-up to a multiple of 15 and divided by 15. -/
def hoursCore (s0 f0 l : Int) : Int :=
  (2 * max 0 ((if f0 < s0 then f0 + 1440 else f0) - s0 - l) + 15).ediv 30

lemma referenceHours_eq_core (s f : String) (l : Int) :
    referenceHours s f l =
      ((hoursCore (60 * (timeParts s).1 + (timeParts s).2)
          (60 * (timeParts f).1 + (timeParts f).2) l : Int) : ℚ) * 15 / 60 := rfl

/-- Evaluate `calculateHours` at a concrete well-formed input: the integer
core is computed by `decide` and the final rational step by `norm_num`. -/
lemma calculateHours_value (s f : String) (l n : Int) (v : ℚ)
    (hs : matchesHHMM s = true) (hf : matchesHHMM f = true)
    (hn : hoursCore (60 * (timeParts s).1 + (timeParts s).2)
        (60 * (timeParts f).1 + (timeParts f).2) l = n)
    (hv : ((n : Int) : ℚ) * 15 / 60 = v) :
    calculateHours s f l = v := by
  rw [calculateHours_eq_referenceHours s f l hs hf, referenceHours_eq_core, hn, hv]

/-- A failed regex test on either string short-circuits to `0`. -/
lemma calculateHours_of_malformed (s f : String) (l : Int)
    (h : matchesHHMM s = false ∨ matchesHHMM f = false) :
    calculateHours s f l = 0 := by
  unfold calculateHours
  rcases h with h | h <;> simp [h]

/-! ### Lemmas about the priority classifier -/

lemma calculatePriority_none (p : String → Option Int) (today : Int) :
    calculatePriority p today none = .low := rfl

lemma calculatePriority_parse_failed (p : String → Option Int) (today : Int) (s : String)
    (h : p s = none) : calculatePriority p today (some s) = .low := by
  simp only [calculatePriority, h]
  split <;> rfl

lemma calculatePriority_parsed (p : String → Option Int) (today : Int) (s : String) (d : Int)
    (hs : s ≠ "") (h : p s = some d) :
    calculatePriority p today (some s) =
      (if d - today ≤ 3 then PriorityLevel.high
       else if d - today ≤ 7 then PriorityLevel.medium
       else PriorityLevel.low) := by
  simp only [calculatePriority, if_neg hs, h]

/-! ### Lemmas about the calendar grid -/

lemma padWeek_length (w : List (Option Date)) (h : w.length ≤ 7) : (padWeek w).length = 7 := by
  simp only [padWeek, List.length_append, List.length_replicate]
  omega

lemma padWeek_of_length_eq (w : List (Option Date)) (h : w.length = 7) : padWeek w = w := by
  simp [padWeek, h]

lemma daysInMonth_pos (y m : Int) : 0 < daysInMonth y m := by
  unfold daysInMonth
  split
  · split <;> norm_num
  · split <;> norm_num

lemma Date.getDay_lt (dt : Date) : dt.getDay < 7 := by
  unfold Date.getDay
  have h1 : 0 ≤ (daysFromCivil dt.year (dt.month + 1) dt.day + 4).emod 7 :=
    Int.emod_nonneg _ (by norm_num)
  have h2 : (daysFromCivil dt.year (dt.month + 1) dt.day + 4).emod 7 < 7 :=
    Int.emod_lt_of_pos _ (by norm_num)
  omega

lemma firstDayOfWeek_lt (y m : Int) : firstDayOfWeek y m < 7 := by
  unfold firstDayOfWeek
  split
  · norm_num
  · exact Date.getDay_lt _

/-- The fuel of `chunkRows` is irrelevant once it covers the list length. -/
lemma chunkRows_fuel (n1 : Nat) :
    ∀ (n2 : Nat) (xs : List (Option Date)), xs.length ≤ n1 → xs.length ≤ n2 →
      chunkRows n1 xs = chunkRows n2 xs := by
  induction n1 with
  | zero =>
    intro n2 xs h1 h2
    have hx : xs = [] := List.eq_nil_of_length_eq_zero (by omega)
    subst hx
    cases n2 <;> rfl
  | succ m ih =>
    intro n2 xs h1 h2
    cases xs with
    | nil => cases n2 <;> rfl
    | cons x t =>
      cases n2 with
      | zero => simp at h2
      | succ m2 =>
        simp only [chunkRows]
        congr 1
        apply ih
        · simp only [List.length_drop, List.length_cons]
          simp only [List.length_cons] at h1
          omega
        · simp only [List.length_drop, List.length_cons]
          simp only [List.length_cons] at h2
          omega

/-- Chunking a stream that starts with a full week emits that week first. -/
lemma chunkRows_of_seven (w rest : List (Option Date)) (h7 : w.length = 7) :
    chunkRows (w ++ rest).length (w ++ rest) = w :: chunkRows rest.length rest := by
  cases w with
  | nil => simp at h7
  | cons x xt =>
    simp only [List.cons_append, List.length_cons, chunkRows]
    rw [show x :: xt.append rest = (x :: xt) ++ rest from rfl,
      List.take_left' h7, List.drop_left' h7, padWeek_of_length_eq _ h7]
    congr 1
    apply chunkRows_fuel
    · rw [show xt.append rest = xt ++ rest from rfl, List.length_append]
      omega
    · exact le_refl _

/-- The source's week-accumulating loop builds exactly the chunked rows of
the flat slot stream. -/
lemma gridLoop_eq_chunkRows (days : List Date) :
    ∀ (week : List (Option Date)), week.length < 7 →
      gridLoop days week
        = chunkRows (week ++ days.map some).length (week ++ days.map some) := by
  induction days with
  | nil =>
    intro week hw
    simp only [gridLoop, List.map_nil, List.append_nil]
    cases week with
    | nil => rfl
    | cons w t =>
      rw [if_neg (by simp)]
      simp only [List.length_cons, chunkRows]
      rw [List.take_of_length_le (by simp only [List.length_cons] at hw ⊢; omega),
        List.drop_of_length_le (by simp only [List.length_cons] at hw ⊢; omega)]
      have hz : ∀ n : Nat, chunkRows n ([] : List (Option Date)) = [] := by
        intro n; cases n <;> rfl
      rw [hz]
  | cons d rest ih =>
    intro week hw
    by_cases h7 : (week ++ [some d]).length = 7
    · have hstep : gridLoop (d :: rest) week = (week ++ [some d]) :: gridLoop rest [] := by
        simp only [gridLoop]
        rw [if_pos h7]
      rw [hstep, ih [] (by norm_num)]
      simp only [List.nil_append, List.map_cons]
      have hassoc : week ++ some d :: rest.map some = (week ++ [some d]) ++ rest.map some := by
        simp
      rw [hassoc, chunkRows_of_seven _ _ h7]
    · have hstep : gridLoop (d :: rest) week = gridLoop rest (week ++ [some d]) := by
        simp only [gridLoop]
        rw [if_neg h7]
      have hlen : (week ++ [some d]).length < 7 := by
        simp only [List.length_append, List.length_cons, List.length_nil] at h7 ⊢
        omega
      rw [hstep, ih _ hlen]
      have hassoc : (week ++ [some d]) ++ rest.map some = week ++ (some d :: rest.map some) := by
        simp
      rw [hassoc]
      simp only [List.map_cons]

/-- The grid the source builds is exactly the reference grid described by the
specification. -/
lemma getCalendarGrid_eq_referenceGrid (y m : Int) :
    getCalendarGrid y m = referenceGrid y m := by
  unfold getCalendarGrid referenceGrid monthSlots
  exact gridLoop_eq_chunkRows _ _ (by simpa using firstDayOfWeek_lt y m)

/-- Every row emitted by the chunker has exactly 7 slots. -/
lemma chunkRows_rows7 (n : Nat) :
    ∀ (xs : List (Option Date)), ∀ w ∈ chunkRows n xs, w.length = 7 := by
  induction n with
  | zero =>
    intro xs w hw
    cases xs with
    | nil => simp [chunkRows] at hw
    | cons x t => simp [chunkRows] at hw
  | succ m ih =>
    intro xs w hw
    cases xs with
    | nil => simp [chunkRows] at hw
    | cons x t =>
      simp only [chunkRows, List.mem_cons] at hw
      rcases hw with h | h
      · subst h
        refine padWeek_length _ ?_
        simp only [List.length_take]
        omega
      · exact ih _ _ h

/-- Flattening the chunked rows recovers the slot stream followed by the
final-row padding. -/
lemma chunkRows_flatten (n : Nat) :
    ∀ (xs : List (Option Date)), xs.length ≤ n →
      (chunkRows n xs).flatten
        = xs ++ List.replicate ((7 - xs.length % 7) % 7) none := by
  induction n with
  | zero =>
    intro xs h
    have hx : xs = [] := List.eq_nil_of_length_eq_zero (by omega)
    subst hx
    rfl
  | succ m ih =>
    intro xs h
    cases xs with
    | nil => rfl
    | cons x t =>
      simp only [chunkRows, List.flatten_cons]
      rw [ih _ (by simp only [List.length_drop, List.length_cons]; simp only [List.length_cons] at h; omega)]
      by_cases hlen : (x :: t).length ≤ 7
      · rw [List.take_of_length_le hlen, List.drop_of_length_le hlen]
        simp only [List.length_nil, List.nil_append, Nat.zero_mod, Nat.sub_zero, Nat.mod_self,
          List.replicate_zero, List.append_nil, padWeek]
        have hcnt : 7 - (x :: t).length = (7 - (x :: t).length % 7) % 7 := by
          simp only [List.length_cons] at hlen ⊢
          omega
        rw [hcnt]
      · push_neg at hlen
        rw [padWeek_of_length_eq _ (by simp only [List.length_take]; omega)]
        rw [← List.append_assoc, List.take_append_drop]
        congr 2
        simp only [List.length_drop, List.length_cons] at *
        omega

lemma filterMap_id_replicate_none (n : Nat) :
    (List.replicate n (none : Option Date)).filterMap id = [] := by
  induction n with
  | zero => rfl
  | succ m ih => simp [List.replicate_succ, List.filterMap_cons, ih]

lemma filterMap_id_map_some (l : List Date) : (l.map some).filterMap id = l := by
  induction l with
  | nil => rfl
  | cons d t ih => simp [List.filterMap_cons, ih]

/-- The source grid flattens to the slot stream plus final padding. -/
lemma getCalendarGrid_flatten (y m : Int) :
    (getCalendarGrid y m).flatten
      = monthSlots y m ++ List.replicate ((7 - (monthSlots y m).length % 7) % 7) none := by
  rw [getCalendarGrid_eq_referenceGrid]
  unfold referenceGrid
  exact chunkRows_flatten _ _ (le_refl _)

/-- The non-empty slots of the grid, in order, are exactly the month's days. -/
lemma getCalendarGrid_filterMap (y m : Int) :
    (getCalendarGrid y m).flatten.filterMap id = getMonthDays y m := by
  rw [getCalendarGrid_flatten]
  simp only [List.filterMap_append, monthSlots]
  rw [filterMap_id_replicate_none, filterMap_id_replicate_none, filterMap_id_map_some]
  simp

/-- Every row of the source grid has exactly 7 slots. -/
lemma getCalendarGrid_rows7 (y m : Int) : ∀ w ∈ getCalendarGrid y m, w.length = 7 := by
  rw [getCalendarGrid_eq_referenceGrid]
  unfold referenceGrid
  exact chunkRows_rows7 _ _

lemma getMonthDays_length (y m : Int) :
    (getMonthDays y m).length = daysInMonth (y + m.ediv 12) (m.emod 12) := by
  unfold getMonthDays
  rw [List.length_map, List.length_range]

lemma mem_getMonthDays (y m : Int) (d : Date) (hd : d ∈ getMonthDays y m) :
    d.year = y + m.ediv 12 ∧ d.month = m.emod 12 := by
  unfold getMonthDays at hd
  simp only [List.mem_map] at hd
  obtain ⟨j, hj, rfl⟩ := hd
  exact ⟨rfl, rfl⟩

/-- `daysFromCivil` is linear in the day-of-month. -/
lemma daysFromCivil_linear (y m d : Int) :
    daysFromCivil y m d = daysFromCivil y m 1 + (d - 1) := by
  simp only [daysFromCivil]
  ring

lemma emod_toNat_shift (B : Int) (j : Nat) :
    ((B + j + 4) % 7).toNat = (((B + 4) % 7).toNat + j) % 7 := by
  omega

/-- Weekday of the `(j+1)`-st day of a month, relative to day 1. -/
lemma getDay_mk (y m : Int) (j : Nat) :
    (Date.mk y m ((j : Int) + 1)).getDay
      = (((daysFromCivil y (m + 1) 1 + 4).emod 7).toNat + j) % 7 := by
  unfold Date.getDay
  dsimp only
  rw [daysFromCivil_linear]
  have h4 : (j : Int) + 1 - 1 = (j : Int) := by ring
  rw [h4]
  exact emod_toNat_shift (daysFromCivil y (m + 1) 1) j

/-- The weekday that pads the grid front is the weekday of day 1 of the
normalized month. -/
lemma firstDayOfWeek_eq (y m : Int) :
    firstDayOfWeek y m
      = ((daysFromCivil (y + m.ediv 12) (m.emod 12 + 1) 1 + 4).emod 7).toNat := by
  have hD : 0 < daysInMonth (y + m.ediv 12) (m.emod 12) := daysInMonth_pos _ _
  obtain ⟨D1, hD1⟩ : ∃ D1, daysInMonth (y + m.ediv 12) (m.emod 12) = D1 + 1 :=
    ⟨daysInMonth (y + m.ediv 12) (m.emod 12) - 1, by omega⟩
  simp only [firstDayOfWeek, getMonthDays]
  rw [hD1, List.range_succ_eq_map]
  simp only [List.map_cons]
  unfold Date.getDay
  dsimp only
  norm_num

/-- Every filled slot of the flat slot stream sits at an index congruent to
its weekday modulo 7. -/
lemma monthSlots_aligned (y m : Int) :
    ∀ (i : Nat) (hi : i < (monthSlots y m).length) (d : Date),
      (monthSlots y m)[i] = some d → d.getDay = i % 7 := by
  intro i hi d hd
  have hlen : (monthSlots y m).length
      = firstDayOfWeek y m + (getMonthDays y m).length := by
    simp [monthSlots]
  by_cases hik : i < firstDayOfWeek y m
  · exfalso
    have hnone : (monthSlots y m)[i] = (none : Option Date) := by
      unfold monthSlots
      rw [List.getElem_append_left (by simpa using hik), List.getElem_replicate]
    rw [hnone] at hd
    exact Option.noConfusion hd
  · push_neg at hik
    have hj : i - firstDayOfWeek y m < (getMonthDays y m).length := by omega
    have hstep : (monthSlots y m)[i]
        = some ((getMonthDays y m)[i - firstDayOfWeek y m]) := by
      unfold monthSlots
      rw [List.getElem_append_right (by simpa using hik)]
      simp only [List.length_replicate]
      rw [List.getElem_map]
    rw [hstep] at hd
    have hd2 := Option.some.inj hd
    have hmd : (getMonthDays y m)[i - firstDayOfWeek y m]
        = Date.mk (y + m.ediv 12) (m.emod 12) (((i - firstDayOfWeek y m : Nat) : Int) + 1) := by
      simp only [getMonthDays] at hj ⊢
      rw [List.getElem_map, List.getElem_range]
    rw [hmd] at hd2
    subst hd2
    rw [getDay_mk, firstDayOfWeek_eq]
    have h1 : 0 ≤ (daysFromCivil (y + m.ediv 12) (m.emod 12 + 1) 1 + 4).emod 7 :=
      Int.emod_nonneg _ (by norm_num)
    have h2 : (daysFromCivil (y + m.ediv 12) (m.emod 12 + 1) 1 + 4).emod 7 < 7 :=
      Int.emod_lt_of_pos _ (by norm_num)
    rw [firstDayOfWeek_eq] at hik
    omega

/-- Chunking preserves alignment: if every filled slot of the stream has its
weekday congruent to its stream index mod 7, then in every emitted row each
filled slot's weekday equals its column. -/
lemma chunkRows_aligned (n : Nat) :
    ∀ (xs : List (Option Date)),
      (∀ (i : Nat) (hi : i < xs.length) (d : Date), xs[i] = some d → d.getDay = i % 7) →
      ∀ (r : Nat) (hr : r < (chunkRows n xs).length) (c : Nat)
        (hc : c < ((chunkRows n xs)[r]).length) (d : Date),
        ((chunkRows n xs)[r])[c] = some d → d.getDay = c := by
  induction n with
  | zero =>
    intro xs hxs r hr c hc d hd
    cases xs with
    | nil => simp [chunkRows] at hr
    | cons x t => simp [chunkRows] at hr
  | succ nn ih =>
    intro xs hxs r hr c hc d hd
    cases xs with
    | nil => simp [chunkRows] at hr
    | cons x t =>
      cases r with
      | zero =>
        simp only [chunkRows, List.getElem_cons_zero] at hd hc
        by_cases hct : c < ((x :: t).take 7).length
        · simp only [padWeek] at hd
          rw [List.getElem_append_left hct] at hd
          have hcx : c < (x :: t).length := by
            simp only [List.length_take] at hct
            omega
          rw [List.getElem_take] at hd
          have hget := hxs c hcx d hd
          have hc7 : c < 7 := by
            simp only [List.length_take] at hct
            omega
          omega
        · exfalso
          push_neg at hct
          simp only [padWeek] at hd
          rw [List.getElem_append_right hct, List.getElem_replicate] at hd
          exact Option.noConfusion hd
      | succ rr =>
        simp only [chunkRows, List.length_cons, Nat.add_lt_add_iff_right] at hr
        simp only [chunkRows, List.getElem_cons_succ] at hd hc
        refine ih ((x :: t).drop 7) ?_ rr hr c hc d hd
        intro i hi d2 hd2
        have hib : 7 + i < (x :: t).length := by
          simp only [List.length_drop] at hi
          omega
        rw [List.getElem_drop] at hd2
        have hg := hxs (7 + i) hib d2 hd2
        omega

/-- ECMAScript month normalization is idempotent: the month list of a
normalized year/month pair is the month list of the raw pair. -/
lemma getMonthDays_normalize (y m : Int) :
    getMonthDays (y + m.ediv 12) (m.emod 12) = getMonthDays y m := by
  unfold getMonthDays
  have e1 : (m.emod 12).ediv 12 = 0 :=
    Int.ediv_eq_zero_of_lt (Int.emod_nonneg m (by norm_num)) (Int.emod_lt_of_pos m (by norm_num))
  have e2 : (m.emod 12).emod 12 = m.emod 12 :=
    Int.emod_eq_of_lt (Int.emod_nonneg m (by norm_num)) (Int.emod_lt_of_pos m (by norm_num))
  rw [e1, e2, add_zero]

/-- The grid of an out-of-range month is the grid of the normalized pair. -/
lemma getCalendarGrid_normalize (y m : Int) :
    getCalendarGrid y m = getCalendarGrid (y + m.ediv 12) (m.emod 12) := by
  unfold getCalendarGrid firstDayOfWeek
  rw [getMonthDays_normalize]

/-! ### Claim theorems -/

/-- Claim C1: for every pair of `HH:MM`-shaped start/finish strings and every
`lunchMinutes`, `calculateHours` equals the reference computation (minutes
since midnight, +1440 on overnight wrap, lunch-adjusted difference floored at
0, rounded half-up to the nearest 15 minutes, divided by 60); in particular
`computeHours("07:00","16:30",30) = 9`, `computeHours("22:00","06:00",0) = 8`,
`computeHours("09:00","09:10",0) = 0.25`, and the result is always
non-negative. -/
theorem calculateHours_spec :
    (∀ (s f : String) (l : Int), matchesHHMM s = true → matchesHHMM f = true →
      calculateHours s f l = referenceHours s f l)
    ∧ calculateHours "07:00" "16:30" 30 = 9
    ∧ calculateHours "22:00" "06:00" 0 = 8
    ∧ calculateHours "09:00" "09:10" 0 = 1 / 4
    ∧ (∀ (s f : String) (l : Int), 0 ≤ calculateHours s f l) := by
  refine ⟨fun s f l hs hf => calculateHours_eq_referenceHours s f l hs hf, ?_, ?_, ?_,
    fun s f l => calculateHours_nonneg s f l⟩
  · exact calculateHours_value _ _ _ 36 _ (by decide) (by decide) (by decide) (by norm_num)
  · exact calculateHours_value _ _ _ 32 _ (by decide) (by decide) (by decide) (by norm_num)
  · exact calculateHours_value _ _ _ 1 _ (by decide) (by decide) (by decide) (by norm_num)

/-- Witness for C1 at a concrete well-formed input. -/
theorem calculateHours_spec_witness :
    (matchesHHMM "07:00" = true ∧ matchesHHMM "16:30" = true)
    ∧ calculateHours "07:00" "16:30" 30 = referenceHours "07:00" "16:30" 30 :=
  ⟨⟨by decide, by decide⟩, calculateHours_spec.1 "07:00" "16:30" 30 (by decide) (by decide)⟩

/-- Claim C6: when either time string fails the strict `HH:MM` pattern the
function returns 0 (silently, it cannot throw); in particular
`computeHours("","16:00",0) = 0` and `computeHours("09:00","",0) = 0`. -/
theorem calculateHours_malformed_zero :
    (∀ (s f : String) (l : Int), matchesHHMM s = false ∨ matchesHHMM f = false →
      calculateHours s f l = 0)
    ∧ calculateHours "" "16:00" 0 = 0
    ∧ calculateHours "09:00" "" 0 = 0 :=
  ⟨fun s f l h => calculateHours_of_malformed s f l h, by decide, by decide⟩

/-- Witness for C6 at a concrete malformed input. -/
theorem calculateHours_malformed_zero_witness :
    matchesHHMM "7:00" = false ∧ calculateHours "7:00" "16:00" 5 = 0 :=
  ⟨by decide, calculateHours_malformed_zero.1 "7:00" "16:00" 5 (Or.inl (by decide))⟩

/-- Counterexample to C7 as stated: a negative `lunchMinutes` does not give
the same result as `0` — the code subtracts it unconditionally, so
`computeHours("09:00","10:00",-60) = 2` while the same times with lunch `0`
give `1`. -/
theorem calculateHours_negative_lunch_counterexample :
    calculateHours "09:00" "10:00" (-60) ≠ calculateHours "09:00" "10:00" 0 := by
  have h1 : calculateHours "09:00" "10:00" (-60) = 2 :=
    calculateHours_value _ _ _ 8 _ (by decide) (by decide) (by decide) (by norm_num)
  have h2 : calculateHours "09:00" "10:00" 0 = 1 :=
    calculateHours_value _ _ _ 4 _ (by decide) (by decide) (by decide) (by norm_num)
  rw [h1, h2]
  norm_num

/-- Claim C7 (amended): a `lunchMinutes` of `0` means no deduction — the
result equals the computation with no lunch subtraction at all; the code
subtracts `lunchMinutes` unconditionally, so a negative value increases the
computed hours (e.g. 09:00–10:00 with lunch −60 yields 2) rather than
behaving like `0`. -/
theorem calculateHours_zero_lunch_no_deduction :
    (∀ (s f : String), matchesHHMM s = true → matchesHHMM f = true →
      calculateHours s f 0 = referenceHoursNoLunch s f)
    ∧ calculateHours "09:00" "10:00" (-60) = 2 := by
  constructor
  · intro s f hs hf
    rw [calculateHours_eq_referenceHours s f 0 hs hf]
    unfold referenceHours referenceHoursNoLunch
    norm_num
  · exact calculateHours_value _ _ _ 8 _ (by decide) (by decide) (by decide) (by norm_num)

/-- Witness for the amended C7 at a concrete input. -/
theorem calculateHours_zero_lunch_no_deduction_witness :
    calculateHours "08:00" "12:00" 0 = referenceHoursNoLunch "08:00" "12:00" :=
  calculateHours_zero_lunch_no_deduction.1 "08:00" "12:00" (by decide) (by decide)

/-- Claim C10: the regex validates only the two-digit:two-digit shape, not
24-hour ranges; digits beyond 23:59 still go through the usual arithmetic,
so `computeHours("25:00","26:00",0) = 1` rather than 0. -/
theorem calculateHours_shape_only :
    (∀ (s f : String) (l : Int), matchesHHMM s = true → matchesHHMM f = true →
      23 < (timeParts s).1 ∨ 59 < (timeParts s).2
        ∨ 23 < (timeParts f).1 ∨ 59 < (timeParts f).2 →
      calculateHours s f l = referenceHours s f l)
    ∧ matchesHHMM "25:00" = true
    ∧ calculateHours "25:00" "26:00" 0 = 1 := by
  refine ⟨fun s f l hs hf _ => calculateHours_eq_referenceHours s f l hs hf, by decide, ?_⟩
  exact calculateHours_value _ _ _ 4 _ (by decide) (by decide) (by decide) (by norm_num)

/-- Witness for C10 at a concrete out-of-range-hour input. -/
theorem calculateHours_shape_only_witness :
    (matchesHHMM "25:00" = true ∧ 23 < (timeParts "25:00").1)
    ∧ calculateHours "25:00" "26:00" 3 = referenceHours "25:00" "26:00" 3 :=
  ⟨⟨by decide, by decide⟩,
    calculateHours_shape_only.1 "25:00" "26:00" 3 (by decide) (by decide)
      (Or.inl (by decide))⟩

/-- Claim C2: an absent due date classifies as `low`; otherwise with
`daysUntil` the whole-day difference between the parsed due date and today,
`daysUntil ≤ 3` (including overdue/negative) gives `high`,
`3 < daysUntil ≤ 7` gives `medium`, and `daysUntil > 7` gives `low`. -/
theorem calculatePriority_thresholds :
    ∀ (parseISO : String → Option Int) (today : Int),
      calculatePriority parseISO today none = PriorityLevel.low
      ∧ ∀ (s : String) (d : Int), s ≠ "" → parseISO s = some d →
          ((d - today ≤ 3 →
              calculatePriority parseISO today (some s) = PriorityLevel.high)
          ∧ (3 < d - today → d - today ≤ 7 →
              calculatePriority parseISO today (some s) = PriorityLevel.medium)
          ∧ (7 < d - today →
              calculatePriority parseISO today (some s) = PriorityLevel.low)) := by
  intro p today
  refine ⟨rfl, fun s d hs hp => ⟨?_, ?_, ?_⟩⟩
  · intro h3
    rw [calculatePriority_parsed p today s d hs hp, if_pos h3]
  · intro h3 h7
    rw [calculatePriority_parsed p today s d hs hp, if_neg (by omega), if_pos h7]
  · intro h7
    rw [calculatePriority_parsed p today s d hs hp, if_neg (by omega), if_neg (by omega)]

/-- Witness for C2: a due date five days out is `medium`. -/
theorem calculatePriority_thresholds_witness :
    ("x" ≠ "" ∧ (3 : Int) < 5 - 0 ∧ (5 : Int) - 0 ≤ 7)
    ∧ calculatePriority (fun _ => some 5) 0 (some "x") = PriorityLevel.medium :=
  ⟨⟨by decide, by norm_num, by norm_num⟩,
    ((calculatePriority_thresholds (fun _ => some 5) 0).2 "x" 5 (by decide) rfl).2.1
      (by norm_num) (by norm_num)⟩

/-- Claim C9: the classifier is total — every input, including a string whose
parse fails (JavaScript Invalid Date / NaN), yields one of the three tiers
and never throws; an unparseable string yields `low`. -/
theorem calculatePriority_total :
    ∀ (parseISO : String → Option Int) (today : Int),
      (∀ (dueDate : Option String),
        calculatePriority parseISO today dueDate = PriorityLevel.high
        ∨ calculatePriority parseISO today dueDate = PriorityLevel.medium
        ∨ calculatePriority parseISO today dueDate = PriorityLevel.low)
      ∧ (∀ (s : String), parseISO s = none →
          calculatePriority parseISO today (some s) = PriorityLevel.low) := by
  intro p today
  constructor
  · intro o
    cases h : calculatePriority p today o with
    | high => exact Or.inl rfl
    | medium => exact Or.inr (Or.inl rfl)
    | low => exact Or.inr (Or.inr rfl)
  · exact fun s h => calculatePriority_parse_failed p today s h

/-- Witness for C9: a parse failure yields `low`. -/
theorem calculatePriority_total_witness :
    calculatePriority (fun _ => none) 0 (some "not-a-date") = PriorityLevel.low :=
  (calculatePriority_total (fun _ => none) 0).2 "not-a-date" rfl

/-- Claim C3: for every valid year and month 0–11 the grid equals the
reference construction (weekday-index empty slots prepended, dates packed
ascending into rows of 7, final row padded), every row has exactly 7
elements; February 2024 gives 5 rows with its first non-empty slot in
column 4. -/
theorem getCalendarGrid_spec :
    (∀ (y m : Int), 0 ≤ m → m ≤ 11 →
      getCalendarGrid y m = referenceGrid y m
      ∧ ∀ w ∈ getCalendarGrid y m, w.length = 7)
    ∧ (getCalendarGrid 2024 1).length = 5
    ∧ ((getCalendarGrid 2024 1).headD []).findIdx (fun s => s.isSome) = 4 :=
  ⟨fun y m _ _ => ⟨getCalendarGrid_eq_referenceGrid y m, getCalendarGrid_rows7 y m⟩,
    by decide, by decide⟩

/-- Witness for C3 at February 2024. -/
theorem getCalendarGrid_spec_witness :
    getCalendarGrid 2024 1 = referenceGrid 2024 1
    ∧ ((getCalendarGrid 2024 1).headD []).length = 7 :=
  ⟨(getCalendarGrid_spec.1 2024 1 (by norm_num) (by norm_num)).1,
    (getCalendarGrid_spec.1 2024 1 (by norm_num) (by norm_num)).2 _ (by decide)⟩

/-- Claim C4: in the grid of any valid year/month, every non-empty slot's
weekday index equals its column index, and the number of non-empty slots is
the number of days in the month. -/
theorem getCalendarGrid_invariants :
    ∀ (y m : Int), 0 ≤ m → m ≤ 11 →
      (∀ (r : Nat) (hr : r < (getCalendarGrid y m).length) (c : Nat)
        (hc : c < ((getCalendarGrid y m)[r]).length) (d : Date),
        ((getCalendarGrid y m)[r])[c] = some d → d.getDay = c)
      ∧ ((getCalendarGrid y m).flatten.filterMap id).length = daysInMonth y m := by
  intro y m h0 h1
  constructor
  · rw [getCalendarGrid_eq_referenceGrid]
    unfold referenceGrid
    exact fun r hr c hc d hd =>
      chunkRows_aligned _ _ (monthSlots_aligned y m) r hr c hc d hd
  · rw [getCalendarGrid_filterMap, getMonthDays_length]
    have e1 : m.ediv 12 = 0 := Int.ediv_eq_zero_of_lt h0 (by omega)
    have e2 : m.emod 12 = m := Int.emod_eq_of_lt h0 (by omega)
    rw [e1, e2, add_zero]

/-- Witness for C4: in February 2024, the slot at row 0, column 4 holds the
1st, whose weekday is 4 (Thursday), and the slot count is 29. -/
theorem getCalendarGrid_invariants_witness :
    (Date.mk 2024 1 1).getDay = 4
    ∧ ((getCalendarGrid 2024 1).flatten.filterMap id).length = daysInMonth 2024 1 :=
  ⟨(getCalendarGrid_invariants 2024 1 (by norm_num) (by norm_num)).1 0 (by decide) 4
      (by decide) (Date.mk 2024 1 1) (by decide),
    (getCalendarGrid_invariants 2024 1 (by norm_num) (by norm_num)).2⟩

/-- Claim C5: round-trip — every non-empty slot of the grid of `(y, m)`
carries a date whose year and month are exactly `(y, m)`. -/
theorem getCalendarGrid_roundtrip :
    ∀ (y m : Int), 0 ≤ m → m ≤ 11 →
      ∀ d ∈ (getCalendarGrid y m).flatten.filterMap id, d.year = y ∧ d.month = m := by
  intro y m h0 h1 d hd
  rw [getCalendarGrid_filterMap] at hd
  have hm := mem_getMonthDays y m d hd
  have e1 : m.ediv 12 = 0 := Int.ediv_eq_zero_of_lt h0 (by omega)
  have e2 : m.emod 12 = m := Int.emod_eq_of_lt h0 (by omega)
  rw [e1, e2, add_zero] at hm
  exact hm

/-- Witness for C5 at a concrete slot of February 2024. -/
theorem getCalendarGrid_roundtrip_witness :
    (Date.mk 2024 1 15).year = 2024 ∧ (Date.mk 2024 1 15).month = 1 :=
  getCalendarGrid_roundtrip 2024 1 (by norm_num) (by norm_num) (Date.mk 2024 1 15)
    (by decide)

/-- Counterexample to C8 as stated: the out-of-range month 12 is not fatal —
the call returns the perfectly normal grid of January 2025 (5 rows). -/
theorem getCalendarGrid_month12_counterexample :
    getCalendarGrid 2024 12 = getCalendarGrid 2025 0
    ∧ (getCalendarGrid 2024 12).length = 5 :=
  ⟨by decide, by decide⟩

/-- Claim C8 (amended): the builder has no error conditions for months 0–11,
and an out-of-range month is not rejected either — ECMAScript `Date`
normalization carries `⌊month/12⌋` into the year, and the call returns the
normal grid of the normalized month (every row still has 7 slots). -/
theorem getCalendarGrid_month_normalizes :
    ∀ (y m : Int),
      getCalendarGrid y m = getCalendarGrid (y + m.ediv 12) (m.emod 12)
      ∧ ∀ w ∈ getCalendarGrid y m, w.length = 7 :=
  fun y m => ⟨getCalendarGrid_normalize y m, getCalendarGrid_rows7 y m⟩

/-- Witness for the amended C8 at month 13. -/
theorem getCalendarGrid_month_normalizes_witness :
    getCalendarGrid 2024 13
      = getCalendarGrid (2024 + (13 : Int).ediv 12) ((13 : Int).emod 12)
    ∧ ((getCalendarGrid 2024 13).headD []).length = 7 :=
  ⟨(getCalendarGrid_month_normalizes 2024 13).1,
    (getCalendarGrid_month_normalizes 2024 13).2 _ (by decide)⟩

end SiteCore
